import Mathlib

/-!
Shallow embedding of `drm/libmediadrm/CryptoHalHidl.cpp` (class
`android::CryptoHalHidl`), the HIDL-based wrapper around a remote crypto
plugin.  Machine integers are modelled as `Nat`/`Int` with explicit
wraparound where the C++ arithmetic can overflow (`size_t` additions in
`checkSharedBuffer`, the `int32_t` heap sequence counter).  Remote HIDL
calls are modelled by explicit response records (transaction success flag
plus the values the callback would receive); the wrapper's observable
behaviour — return value, state change, and whether/with which arguments a
remote call was issued — is computed from them.
-/

namespace CryptoHal

/-! Status constants, from `utils/Errors.h` (`OK`, `UNKNOWN_ERROR = INT32_MIN`,
`NO_INIT = INT32_MIN + 7`, `DEAD_OBJECT = INT32_MIN + 9`) and
`media/stagefright/MediaErrors.h` (`ERROR_UNSUPPORTED = -1010`). -/

def OK : Int := 0

def UNKNOWN_ERROR : Int := -2147483648

def NO_INIT : Int := -2147483641

def DEAD_OBJECT : Int := -2147483639

def ERROR_UNSUPPORTED : Int := -1010

/-- `SIZE_MAX` for the 64-bit `size_t` used throughout the file. -/
def SIZE_MAX : Nat := 2 ^ 64 - 1

/-- `static_cast<int32_t>(bufferId)` on a `uint32_t` value. -/
def int32OfUInt32 (n : Nat) : Int :=
  if n < 2 ^ 31 then (n : Int) else (n : Int) - 2 ^ 32

/-- `mHeapSeqNum++` on an `int32_t`: two's-complement wraparound at
`INT32_MAX`. -/
def int32Succ (n : Int) : Int :=
  if n = 2 ^ 31 - 1 then -(2 ^ 31) else n + 1

/-! `mHeapSizes` is a `KeyedVector<int32_t, size_t>`: a finite map from
sequence numbers to heap sizes.  We embed it as an association list;
`ksLookup` is `indexOfKey`/`valueFor`, `ksAdd` is `add` (replacing any
existing entry for the key), `ksRemove` is `removeItem`. -/

abbrev HeapSizes := List (Int × Nat)

def ksLookup : HeapSizes → Int → Option Nat
  | [], _ => none
  | (k, v) :: t, key => if k = key then some v else ksLookup t key

def ksRemove (m : HeapSizes) (key : Int) : HeapSizes :=
  m.filter (fun p => p.1 != key)

def ksAdd (m : HeapSizes) (key : Int) (v : Nat) : HeapSizes :=
  (key, v) :: ksRemove m key

/-- `drm::V1_0::SharedBuffer`: `uint32_t bufferId`, `uint64_t offset`,
`uint64_t size`. -/
structure SharedBuffer where
  bufferId : Nat
  offset : Nat
  size : Nat
deriving DecidableEq

/-- Raw values of `drm::V1_0::BufferType`. -/
def BufferType_SHARED_MEMORY : Nat := 0

def BufferType_NATIVE_HANDLE : Nat := 1

/-- `drm::V1_0::DestinationBuffer`: a buffer type tag (an arbitrary raw
`uint32_t` coming over the wire, not necessarily a declared enumerator)
and the `nonsecureMemory` shared buffer. -/
structure DestinationBuffer where
  type : Nat
  nonsecureMemory : SharedBuffer
deriving DecidableEq

/-! Local (`CryptoPlugin::`) decrypt parameter types, from
`media/hardware/CryptoAPI.h`. -/

def kMode_Unencrypted : Nat := 0

def kMode_AES_CTR : Nat := 1

def kMode_AES_WV : Nat := 2

def kMode_AES_CBC : Nat := 3

/-- Wire-side `drm::V1_0::Mode`. -/
inductive HMode where
  | UNENCRYPTED
  | AES_CTR
  | AES_CBC_CTS
  | AES_CBC
deriving DecidableEq

/-- The `switch (mode)` table at the top of `CryptoHalHidl::decrypt`;
`none` is the `default:` branch. -/
def modeToHMode (mode : Nat) : Option HMode :=
  if mode = kMode_Unencrypted then some HMode.UNENCRYPTED
  else if mode = kMode_AES_CTR then some HMode.AES_CTR
  else if mode = kMode_AES_WV then some HMode.AES_CBC_CTS
  else if mode = kMode_AES_CBC then some HMode.AES_CBC
  else none

/-- `CryptoPlugin::Pattern`. -/
structure CPPattern where
  mEncryptBlocks : Nat
  mSkipBlocks : Nat
deriving DecidableEq

/-- `CryptoPlugin::SubSample`. -/
structure CPSubSample where
  mNumBytesOfClearData : Nat
  mNumBytesOfEncryptedData : Nat
deriving DecidableEq

/-- A discovered `ICryptoFactory`, reduced to the behaviour the wrapper
observes: whether it reports a given 16-byte uuid as supported. -/
structure FactoryModel where
  supports : List Nat → Bool

/-- The remote outcome of one `factory->createPlugin` transaction:
whether the transaction succeeded (`Return<void>::isOk`), whether the
callback reported `Status::OK`, whether the returned plugin handle was
non-null, and whether `V1_2::ICryptoPlugin::castFrom` on it is non-null. -/
structure CreateResp where
  txnOk : Bool
  statusOk : Bool
  pluginNonNull : Bool
  castOk : Bool

/-- The member state of a `CryptoHalHidl` object.  The plugin pointers are
abstracted to their nullness. -/
structure CryptoHalState where
  mFactories : List FactoryModel
  mInitCheck : Int
  mHeapSeqNum : Int
  mHeapSizes : HeapSizes
  mPlugin : Bool
  mPluginV1_2 : Bool

/-- The constructor `CryptoHalHidl::CryptoHalHidl`, with `makeCryptoFactories`
abstracted to the list of factories it discovered. -/
def ctor (factories : List FactoryModel) : CryptoHalState :=
  { mFactories := factories
    mInitCheck := if factories.length = 0 then ERROR_UNSUPPORTED else NO_INIT
    mHeapSeqNum := 0
    mHeapSizes := []
    mPlugin := false
    mPluginV1_2 := false }

/-- `CryptoHalHidl::makeCryptoPlugin`: returns (plugin nullness, new
`mInitCheck`).  If the transaction failed the callback never ran (plugin
stays null) and `mInitCheck` becomes `DEAD_OBJECT`; the callback keeps the
plugin only on `Status::OK`. -/
def makeCryptoPlugin (mInitCheck : Int) (r : CreateResp) : Bool × Int :=
  (r.txnOk && r.statusOk && r.pluginNonNull,
   if r.txnOk then mInitCheck else DEAD_OBJECT)

/-- The `for` loop of `CryptoHalHidl::createPlugin`, over the factory list
paired with indices; `resp i` is the remote outcome of the `createPlugin`
call on factory `i`.  Returns the updated state and the indices of the
factories through which a plugin creation was attempted. -/
def createPluginGo (uuid : List Nat) (resp : Nat → CreateResp) :
    List (Nat × FactoryModel) → CryptoHalState → List Nat → CryptoHalState × List Nat
  | [], s, created => (s, created)
  | (i, f) :: rest, s, created =>
    if f.supports uuid then
      let mk := makeCryptoPlugin s.mInitCheck (resp i)
      let s1 := { s with mPlugin := mk.1, mInitCheck := mk.2 }
      let s2 := if s1.mPlugin then { s1 with mPluginV1_2 := (resp i).castOk } else s1
      createPluginGo uuid resp rest s2 (created ++ [i])
    else
      createPluginGo uuid resp rest s created

structure CreatePluginResult where
  ret : Int
  state : CryptoHalState
  created : List Nat

/-- `CryptoHalHidl::createPlugin`. -/
def createPlugin (s : CryptoHalState) (uuid : List Nat) (resp : Nat → CreateResp) :
    CreatePluginResult :=
  let go := createPluginGo uuid resp s.mFactories.enum s []
  let s1 := go.1
  let s2 :=
    if s1.mInitCheck = NO_INIT then
      { s1 with mInitCheck := if s1.mPlugin = false then ERROR_UNSUPPORTED else OK }
    else s1
  ⟨s2.mInitCheck, s2, go.2⟩

/-- `CryptoHalHidl::isCryptoSchemeSupported`: the loop with early return is
`List.any`. -/
def isCryptoSchemeSupported (s : CryptoHalState) (uuid : List Nat) : Bool :=
  s.mFactories.any (fun f => f.supports uuid)

/-- `CryptoHalHidl::destroyPlugin`. -/
def destroyPlugin (s : CryptoHalState) : Int × CryptoHalState :=
  if s.mInitCheck ≠ OK then (s.mInitCheck, s)
  else (OK, { s with mPlugin := false, mPluginV1_2 := false, mInitCheck := NO_INIT })

structure SetHeapBaseResult where
  ret : Int
  state : CryptoHalState
  remoteCalled : Bool

/-- `CryptoHalHidl::setHeapBase`; `heapNonNull` models `heap != NULL` and
`heapSize` is `heap->size()`.  `remoteCalled` records whether
`setSharedBufferBase` was invoked on the plugin. -/
def setHeapBase (s : CryptoHalState) (heapNonNull : Bool) (heapSize : Nat) :
    SetHeapBaseResult :=
  if heapNonNull = false ∨ s.mHeapSeqNum < 0 then ⟨-1, s, false⟩
  else if s.mInitCheck ≠ OK then ⟨-1, s, false⟩
  else
    let seqNum := s.mHeapSeqNum
    ⟨seqNum,
     { s with
        mHeapSeqNum := int32Succ seqNum
        mHeapSizes := ksAdd s.mHeapSizes seqNum heapSize },
     true⟩

structure ClearHeapBaseResult where
  state : CryptoHalState
  remoteCalled : Bool

/-- `CryptoHalHidl::clearHeapBase`: if `seqNum` is a key of `mHeapSizes`,
clear the remote mapping (when the plugin is non-null) and remove the
entry; otherwise do nothing. -/
def clearHeapBase (s : CryptoHalState) (seqNum : Int) : ClearHeapBaseResult :=
  if (ksLookup s.mHeapSizes seqNum).isSome then
    ⟨{ s with mHeapSizes := ksRemove s.mHeapSizes seqNum }, s.mPlugin⟩
  else ⟨s, false⟩

/-- `CryptoHalHidl::checkSharedBuffer`.  The C++ sum
`buffer.offset + buffer.size` is computed in `size_t`, hence the
`% 2 ^ 64`; the second disjunct `SIZE_MAX - buffer.offset < buffer.size`
is the overflow guard. -/
def checkSharedBuffer (mHeapSizes : HeapSizes) (buffer : SharedBuffer) : Int :=
  let seqNum := int32OfUInt32 buffer.bufferId
  match ksLookup mHeapSizes seqNum with
  | none => UNKNOWN_ERROR
  | some heapSize =>
    if heapSize < (buffer.offset + buffer.size) % 2 ^ 64 ∨
        SIZE_MAX - buffer.offset < buffer.size then
      UNKNOWN_ERROR
    else OK

/-- The local arguments of `CryptoHalHidl::decrypt`; `hasErrorDetailMsg`
models `errorDetailMsg != nullptr`. -/
structure DecryptArgs where
  keyId : List Nat
  iv : List Nat
  mode : Nat
  pattern : CPPattern
  hSource : SharedBuffer
  offset : Nat
  subSamples : List CPSubSample
  hDestination : DestinationBuffer
  hasErrorDetailMsg : Bool

/-- The remote outcome of one plugin `decrypt`/`decrypt_1_2` transaction,
together with the ambient `toStatusT` translation of raw wire status
values (`DrmUtils::toStatusT`; raw value `0` is `Status::OK` in both
interface revisions). -/
structure DecryptResp where
  txnOk : Bool
  status : Nat
  bytesWritten : Nat
  detail : String
  toStatusT : Nat → Int

/-- The wire-level arguments of the one remote decrypt call `decrypt`
issues, as marshalled; `isV1_2` tells which interface revision was used. -/
structure WireCall where
  isV1_2 : Bool
  secure : Bool
  keyId : List Nat
  iv : List Nat
  mode : HMode
  pattern : Nat × Nat
  subSamples : List (Nat × Nat)
  source : SharedBuffer
  offset : Nat
  destination : DestinationBuffer

/-- What one `CryptoHalHidl::decrypt` call did: its return value
(`ssize_t`), the remote call it issued (if any), and what it stored into
`*errorDetailMsg` (if anything). -/
structure DecryptOutcome where
  result : Int
  call : Option WireCall
  detailOut : Option String

/-- The local `err` of `CryptoHalHidl::decrypt` after the remote call:
`hResult.isOk() ? toStatusT(status) : DEAD_OBJECT` (on transaction failure
the callback never ran, so the pre-set `UNKNOWN_ERROR` is overwritten by
`DEAD_OBJECT`). -/
def remoteErr (resp : DecryptResp) : Int :=
  if resp.txnOk then resp.toStatusT resp.status else DEAD_OBJECT

/-- The local `bytesWritten` after the remote call: the callback stores the
reported count only when it ran (`isOk`) and the wire status was `OK`. -/
def remoteBytes (resp : DecryptResp) : Nat :=
  if resp.txnOk ∧ resp.status = 0 then resp.bytesWritten else 0

/-- What the decrypt callback stored into `*errorDetailMsg`: the remote
detail string, only when the callback ran with wire status `OK` and the
pointer was non-null. -/
def remoteDetail (resp : DecryptResp) (hasMsg : Bool) : Option String :=
  if resp.txnOk ∧ resp.status = 0 ∧ hasMsg then some resp.detail else none

/-- The wire arguments `CryptoHalHidl::decrypt` marshals for the one remote
call (`decrypt_1_2` iff `mPluginV1_2 != NULL`): `hMode` from the mode
table, `hPattern` and `hSubSamples` copied field by field, source, offset
and destination forwarded unchanged. -/
def wireOf (s : CryptoHalState) (a : DecryptArgs) (hMode : HMode) (secure : Bool) :
    WireCall :=
  ⟨s.mPluginV1_2, secure, a.keyId, a.iv, hMode,
   (a.pattern.mEncryptBlocks, a.pattern.mSkipBlocks),
   a.subSamples.map (fun ss => (ss.mNumBytesOfClearData, ss.mNumBytesOfEncryptedData)),
   a.hSource, a.offset, a.hDestination⟩

/-- The tail of `CryptoHalHidl::decrypt` once the destination buffer has
been handled (`secure` decided): validate the source buffer, then issue
the one remote call and translate its outcome
(`err == OK ? bytesWritten : err`). -/
def decryptRemote (s : CryptoHalState) (resp : DecryptResp) (a : DecryptArgs)
    (hMode : HMode) (secure : Bool) : DecryptOutcome :=
  if checkSharedBuffer s.mHeapSizes a.hSource ≠ OK then
    ⟨checkSharedBuffer s.mHeapSizes a.hSource, none, none⟩
  else
    ⟨if remoteErr resp = OK then ((remoteBytes resp : Nat) : Int) else remoteErr resp,
     some (wireOf s a hMode secure),
     remoteDetail resp a.hasErrorDetailMsg⟩

/-- `CryptoHalHidl::decrypt`.  The state is not modified, so only the
outcome is returned. -/
def decrypt (s : CryptoHalState) (resp : DecryptResp) (a : DecryptArgs) :
    DecryptOutcome :=
  if s.mInitCheck ≠ OK then ⟨s.mInitCheck, none, none⟩
  else
    match modeToHMode a.mode with
    | none => ⟨UNKNOWN_ERROR, none, none⟩
    | some hMode =>
      if a.hDestination.type = BufferType_SHARED_MEMORY then
        if checkSharedBuffer s.mHeapSizes a.hDestination.nonsecureMemory ≠ OK then
          ⟨checkSharedBuffer s.mHeapSizes a.hDestination.nonsecureMemory, none, none⟩
        else decryptRemote s resp a hMode false
      else if a.hDestination.type = BufferType_NATIVE_HANDLE then
        decryptRemote s resp a hMode true
      else ⟨UNKNOWN_ERROR, none, none⟩

/-- `CryptoHalHidl::requiresSecureDecoderComponent`: (returned value,
whether the remote plugin was invoked). -/
def requiresSecureDecoderComponent (s : CryptoHalState) (txnOk value : Bool) :
    Bool × Bool :=
  if s.mInitCheck ≠ OK then (false, false)
  else (txnOk && value, true)

/-- `CryptoHalHidl::notifyResolution` modifies no member state; this is
whether it invokes the remote plugin. -/
def notifyResolutionCallsRemote (s : CryptoHalState) : Bool :=
  if s.mInitCheck ≠ OK then false else true

/-- `CryptoHalHidl::setMediaDrmSession`: (returned status, whether the
remote plugin was invoked).  `toStatusT` translates the raw wire status. -/
def setMediaDrmSession (s : CryptoHalState) (txnOk : Bool) (status : Nat)
    (toStatusT : Nat → Int) : Int × Bool :=
  if s.mInitCheck ≠ OK then (s.mInitCheck, false)
  else (if txnOk then toStatusT status else DEAD_OBJECT, true)

/-- The states reachable by any sequence of operations on one
`CryptoHalHidl` object, together with the history of sequence numbers
returned by successful `setHeapBase` calls (a successful call is exactly
one returning a value `≥ 0`).  The operations not listed
(`isCryptoSchemeSupported`, `decrypt`, `requiresSecureDecoderComponent`,
`notifyResolution`, `setMediaDrmSession`, `initCheck`, `getLogMessages`)
modify no member state. -/
inductive ReachableH : CryptoHalState → List Int → Prop where
  | ctorStep (factories : List FactoryModel) : ReachableH (ctor factories) []
  | createPluginStep {s : CryptoHalState} {hist : List Int}
      (uuid : List Nat) (resp : Nat → CreateResp) :
      ReachableH s hist → ReachableH (createPlugin s uuid resp).state hist
  | destroyPluginStep {s : CryptoHalState} {hist : List Int} :
      ReachableH s hist → ReachableH (destroyPlugin s).2 hist
  | setHeapBaseStep {s : CryptoHalState} {hist : List Int}
      (heapNonNull : Bool) (heapSize : Nat) :
      ReachableH s hist →
      ReachableH (setHeapBase s heapNonNull heapSize).state
        (if 0 ≤ (setHeapBase s heapNonNull heapSize).ret then
          (setHeapBase s heapNonNull heapSize).ret :: hist
         else hist)
  | clearHeapBaseStep {s : CryptoHalState} {hist : List Int} (seqNum : Int) :
      ReachableH s hist → ReachableH (clearHeapBase s seqNum).state hist

/-! Concrete objects used to instantiate the theorems below at evaluable
inputs. -/

def demoFactory : FactoryModel := ⟨fun _ => true⟩

def demoCreateResp : Nat → CreateResp := fun _ => ⟨true, true, true, true⟩

def demoUuid : List Nat := List.replicate 16 7

/-- A ready (`mInitCheck = OK`) state: construct with one factory that
supports every uuid, then create the plugin successfully. -/
def demoReadyState : CryptoHalState :=
  (createPlugin (ctor [demoFactory]) demoUuid demoCreateResp).state

def demoHeapState : CryptoHalState := (setHeapBase demoReadyState true 100).state

def demoGoodBuffer : SharedBuffer := ⟨0, 0, 10⟩

def demoBadBuffer : SharedBuffer := ⟨5, 0, 10⟩

def demoDest : DestinationBuffer := ⟨BufferType_SHARED_MEMORY, ⟨0, 10, 10⟩⟩

def demoArgs : DecryptArgs :=
  ⟨List.replicate 16 1, List.replicate 16 2, kMode_AES_CTR, ⟨2, 8⟩,
   demoGoodBuffer, 0, [⟨3, 4⟩], demoDest, true⟩

def demoBadSrcArgs : DecryptArgs := { demoArgs with hSource := demoBadBuffer }

def demoNativeArgs : DecryptArgs :=
  { demoArgs with hDestination := ⟨BufferType_NATIVE_HANDLE, ⟨9, 999999, 999999⟩⟩ }

def demoToStatusT : Nat → Int := fun st => if st = 0 then 0 else UNKNOWN_ERROR

def demoDecryptResp : DecryptResp := ⟨true, 0, 42, "", demoToStatusT⟩

theorem demoReadyState_reachable : ReachableH demoReadyState [] :=
  ReachableH.createPluginStep demoUuid demoCreateResp (ReachableH.ctorStep [demoFactory])

theorem demoHeapState_reachable : ReachableH demoHeapState [0] :=
  ReachableH.setHeapBaseStep true 100 demoReadyState_reachable

/-- Any value looked up in a one-entry heap map with an in-range size is
in range. -/
theorem ksLookup_singleton_bound (k₀ : Int) (v₀ : Nat) (h : v₀ < 2 ^ 64) :
    ∀ k v, ksLookup [(k₀, v₀)] k = some v → v < 2 ^ 64 := by
  intro k v hkv
  unfold ksLookup at hkv
  split at hkv
  · cases hkv; exact h
  · exact absurd hkv (by unfold ksLookup; simp)

/-- `checkSharedBuffer` accepts a buffer exactly when its `bufferId`
(reinterpreted as the `int32_t` sequence number) is registered and
`offset + size ≤ heapSize` holds in exact (unbounded) arithmetic, given
that the fields are in `size_t`/`uint64_t` range and all registered heap
sizes are `size_t` values. -/
theorem checkSharedBuffer_spec (m : HeapSizes) (b : SharedBuffer)
    (hoff : b.offset < 2 ^ 64) (hsz : b.size < 2 ^ 64)
    (hm : ∀ k v, ksLookup m k = some v → v < 2 ^ 64) :
    checkSharedBuffer m b = OK ↔
      ∃ hs, ksLookup m (int32OfUInt32 b.bufferId) = some hs ∧
        b.offset + b.size ≤ hs := by
  rcases hl : ksLookup m (int32OfUInt32 b.bufferId) with _ | hs
  · simp [checkSharedBuffer, hl, UNKNOWN_ERROR, OK]
  · have hhs := hm _ _ hl
    simp only [checkSharedBuffer, hl]
    constructor
    · intro h
      refine ⟨hs, rfl, ?_⟩
      by_cases hc : hs < (b.offset + b.size) % 2 ^ 64 ∨ SIZE_MAX - b.offset < b.size
      · rw [if_pos hc] at h; exact absurd h (by decide)
      · push_neg at hc
        unfold SIZE_MAX at hc
        omega
    · rintro ⟨hs', heq, hle⟩
      cases heq
      rw [if_neg]
      unfold SIZE_MAX
      push_neg
      omega

/-- Claim C1: every shared-memory buffer `decrypt` validates — the source
buffer always, and the destination buffer when its type is
`SHARED_MEMORY` — must have its `bufferId` registered in the heap-size map
and satisfy `offset + size ≤ heapSize` in exact integer arithmetic (a sum
that would overflow `size_t` is rejected); when a validated buffer fails
this, `decrypt` returns an error status and issues no remote call. -/
theorem C1_decrypt_validates_shared_buffers
    (s : CryptoHalState) (resp : DecryptResp) (a : DecryptArgs) (b : SharedBuffer)
    (hoff : b.offset < 2 ^ 64) (hsz : b.size < 2 ^ 64)
    (hm : ∀ k v, ksLookup s.mHeapSizes k = some v → v < 2 ^ 64)
    (hfail : checkSharedBuffer s.mHeapSizes a.hSource ≠ OK ∨
      (a.hDestination.type = BufferType_SHARED_MEMORY ∧
        checkSharedBuffer s.mHeapSizes a.hDestination.nonsecureMemory ≠ OK)) :
    (checkSharedBuffer s.mHeapSizes b = OK ↔
      ∃ hs, ksLookup s.mHeapSizes (int32OfUInt32 b.bufferId) = some hs ∧
        b.offset + b.size ≤ hs) ∧
    (decrypt s resp a).call = none ∧ (decrypt s resp a).result ≠ OK := by
  refine ⟨checkSharedBuffer_spec _ _ hoff hsz hm, ?_⟩
  unfold decrypt
  split
  · next h => exact ⟨rfl, h⟩
  · next hinit =>
    split
    · exact ⟨rfl, by decide⟩
    · next hMode hmode =>
      split
      · next htype =>
        split
        · next hdest => exact ⟨rfl, hdest⟩
        · next hdest =>
          rcases hfail with hsrc | ⟨-, hdest'⟩
          · unfold decryptRemote
            rw [if_pos hsrc]
            exact ⟨rfl, hsrc⟩
          · exact absurd hdest' (by simpa using hdest)
      · next htype =>
        split
        · next hnative =>
          rcases hfail with hsrc | ⟨htype', -⟩
          · unfold decryptRemote
            rw [if_pos hsrc]
            exact ⟨rfl, hsrc⟩
          · exact absurd htype' htype
        · exact ⟨rfl, by decide⟩

/-- Witness for C1 at a concrete ready state (heap 0 of size 100
registered) and a decrypt call whose source buffer id 5 is unregistered. -/
theorem C1_decrypt_validates_shared_buffers_witness :
    (checkSharedBuffer demoHeapState.mHeapSizes demoGoodBuffer = OK ↔
      ∃ hs, ksLookup demoHeapState.mHeapSizes (int32OfUInt32 demoGoodBuffer.bufferId) =
          some hs ∧ demoGoodBuffer.offset + demoGoodBuffer.size ≤ hs) ∧
    (decrypt demoHeapState demoDecryptResp demoBadSrcArgs).call = none ∧
    (decrypt demoHeapState demoDecryptResp demoBadSrcArgs).result ≠ OK :=
  C1_decrypt_validates_shared_buffers demoHeapState demoDecryptResp demoBadSrcArgs
    demoGoodBuffer (by decide) (by decide)
    (fun k v h => ksLookup_singleton_bound 0 100 (by norm_num) k v h)
    (by decide)

/-- Claim C2: a decrypt call that passes mode and buffer validation issues
exactly one remote decrypt call (the outcome records one call, never
none), and it goes to the V1_2 interface precisely when `mPluginV1_2` is
non-null, otherwise to the V1_0 interface. -/
theorem C2_decrypt_version_dispatch
    (s : CryptoHalState) (resp : DecryptResp) (a : DecryptArgs) (hMode : HMode)
    (hinit : s.mInitCheck = OK)
    (hmode : modeToHMode a.mode = some hMode)
    (hdest : (a.hDestination.type = BufferType_SHARED_MEMORY ∧
        checkSharedBuffer s.mHeapSizes a.hDestination.nonsecureMemory = OK) ∨
      a.hDestination.type = BufferType_NATIVE_HANDLE)
    (hsrc : checkSharedBuffer s.mHeapSizes a.hSource = OK) :
    ∃ c, (decrypt s resp a).call = some c ∧ c.isV1_2 = s.mPluginV1_2 := by
  unfold decrypt
  rw [if_neg (by simp [hinit]), hmode]
  dsimp only
  rcases hdest with ⟨htype, hdestok⟩ | hnative
  · rw [if_pos htype, if_neg (by simp [hdestok])]
    unfold decryptRemote
    rw [if_neg (by simp [hsrc])]
    exact ⟨wireOf s a hMode false, rfl, rfl⟩
  · rw [if_neg (by rw [hnative]; decide), if_pos hnative]
    unfold decryptRemote
    rw [if_neg (by simp [hsrc])]
    exact ⟨wireOf s a hMode true, rfl, rfl⟩

/-- Witness for C2 at the concrete ready state with a valid decrypt call. -/
theorem C2_decrypt_version_dispatch_witness :
    ∃ c, (decrypt demoHeapState demoDecryptResp demoArgs).call = some c ∧
      c.isV1_2 = demoHeapState.mPluginV1_2 :=
  C2_decrypt_version_dispatch demoHeapState demoDecryptResp demoArgs HMode.AES_CTR
    (by decide) (by decide) (by decide) (by decide)

/-- Claim C6: the wire parameters are an exact translation of the local
ones — the mode is mapped by the fixed four-entry table (any other mode
makes `decrypt` return `UNKNOWN_ERROR` with no remote call), the pattern's
block counts are copied unchanged, and the subsample list is copied
element-wise. -/
theorem C6_decrypt_marshalling
    (s : CryptoHalState) (resp : DecryptResp) (a : DecryptArgs)
    (hinit : s.mInitCheck = OK) :
    (modeToHMode kMode_Unencrypted = some HMode.UNENCRYPTED ∧
     modeToHMode kMode_AES_CTR = some HMode.AES_CTR ∧
     modeToHMode kMode_AES_WV = some HMode.AES_CBC_CTS ∧
     modeToHMode kMode_AES_CBC = some HMode.AES_CBC) ∧
    (modeToHMode a.mode = none →
      (decrypt s resp a).result = UNKNOWN_ERROR ∧ (decrypt s resp a).call = none) ∧
    (∀ c, (decrypt s resp a).call = some c →
      modeToHMode a.mode = some c.mode ∧
      c.pattern = (a.pattern.mEncryptBlocks, a.pattern.mSkipBlocks) ∧
      c.subSamples = a.subSamples.map
        (fun ss => (ss.mNumBytesOfClearData, ss.mNumBytesOfEncryptedData))) := by
  refine ⟨by decide, ?_, ?_⟩
  · intro hmode
    unfold decrypt
    rw [if_neg (by simp [hinit]), hmode]
    exact ⟨rfl, rfl⟩
  · intro c hc
    unfold decrypt at hc
    rw [if_neg (by simp [hinit])] at hc
    cases hmode : modeToHMode a.mode with
    | none => rw [hmode] at hc; simp at hc
    | some hMode =>
      rw [hmode] at hc
      dsimp only at hc
      split at hc
      · split at hc
        · simp at hc
        · unfold decryptRemote at hc
          split at hc
          · simp at hc
          · simp only [DecryptOutcome.mk.injEq] at hc
            cases hc
            exact ⟨rfl, rfl, rfl⟩
      · split at hc
        · unfold decryptRemote at hc
          split at hc
          · simp at hc
          · simp only [DecryptOutcome.mk.injEq] at hc
            cases hc
            exact ⟨rfl, rfl, rfl⟩
        · simp at hc

/-- Witness for C6 at the concrete ready state and a valid decrypt call. -/
theorem C6_decrypt_marshalling_witness :
    (modeToHMode kMode_Unencrypted = some HMode.UNENCRYPTED ∧
     modeToHMode kMode_AES_CTR = some HMode.AES_CTR ∧
     modeToHMode kMode_AES_WV = some HMode.AES_CBC_CTS ∧
     modeToHMode kMode_AES_CBC = some HMode.AES_CBC) ∧
    (modeToHMode demoArgs.mode = none →
      (decrypt demoHeapState demoDecryptResp demoArgs).result = UNKNOWN_ERROR ∧
      (decrypt demoHeapState demoDecryptResp demoArgs).call = none) ∧
    (∀ c, (decrypt demoHeapState demoDecryptResp demoArgs).call = some c →
      modeToHMode demoArgs.mode = some c.mode ∧
      c.pattern = (demoArgs.pattern.mEncryptBlocks, demoArgs.pattern.mSkipBlocks) ∧
      c.subSamples = demoArgs.subSamples.map
        (fun ss => (ss.mNumBytesOfClearData, ss.mNumBytesOfEncryptedData))) :=
  C6_decrypt_marshalling demoHeapState demoDecryptResp demoArgs (by decide)

/-- Claim C7: when `decrypt` reaches the remote invocation, a failed
transaction yields `DEAD_OBJECT`; a remote `OK` status yields the
non-negative `bytesWritten` count and stores the detail string into a
non-null `errorDetailMsg`; any other remote status yields its `toStatusT`
translation. -/
theorem C7_decrypt_remote_outcome
    (s : CryptoHalState) (resp : DecryptResp) (a : DecryptArgs) (hMode : HMode)
    (hinit : s.mInitCheck = OK)
    (hmode : modeToHMode a.mode = some hMode)
    (hdest : (a.hDestination.type = BufferType_SHARED_MEMORY ∧
        checkSharedBuffer s.mHeapSizes a.hDestination.nonsecureMemory = OK) ∨
      a.hDestination.type = BufferType_NATIVE_HANDLE)
    (hsrc : checkSharedBuffer s.mHeapSizes a.hSource = OK)
    (hok : resp.toStatusT 0 = OK) :
    (resp.txnOk = false → (decrypt s resp a).result = DEAD_OBJECT) ∧
    (resp.txnOk = true → resp.status = 0 →
      (decrypt s resp a).result = (resp.bytesWritten : Int) ∧
      0 ≤ (decrypt s resp a).result ∧
      (a.hasErrorDetailMsg = true → (decrypt s resp a).detailOut = some resp.detail)) ∧
    (resp.txnOk = true → resp.status ≠ 0 →
      (decrypt s resp a).result = resp.toStatusT resp.status) := by
  have hd : ∃ sec, decrypt s resp a =
      ⟨if remoteErr resp = OK then ((remoteBytes resp : Nat) : Int) else remoteErr resp,
       some (wireOf s a hMode sec), remoteDetail resp a.hasErrorDetailMsg⟩ := by
    unfold decrypt
    rw [if_neg (by simp [hinit]), hmode]
    dsimp only
    rcases hdest with ⟨htype, hdestok⟩ | hnative
    · rw [if_pos htype, if_neg (by simp [hdestok])]
      unfold decryptRemote
      rw [if_neg (by simp [hsrc])]
      exact ⟨false, rfl⟩
    · rw [if_neg (by rw [hnative]; decide), if_pos hnative]
      unfold decryptRemote
      rw [if_neg (by simp [hsrc])]
      exact ⟨true, rfl⟩
  obtain ⟨sec, hd⟩ := hd
  rw [hd]
  dsimp only
  refine ⟨?_, ?_, ?_⟩
  · intro ht
    rw [show remoteErr resp = DEAD_OBJECT by simp [remoteErr, ht]]
    rw [if_neg (by decide)]
  · intro ht hst
    have he : remoteErr resp = OK := by simp [remoteErr, ht, hst, hok]
    have hb : remoteBytes resp = resp.bytesWritten := by simp [remoteBytes, ht, hst]
    rw [he, if_pos rfl, hb]
    refine ⟨rfl, Int.ofNat_nonneg _, ?_⟩
    intro hmsg
    simp [remoteDetail, ht, hst, hmsg]
  · intro ht hst
    have he : remoteErr resp = resp.toStatusT resp.status := by simp [remoteErr, ht]
    rw [he]
    by_cases h0 : resp.toStatusT resp.status = OK
    · rw [if_pos h0, h0]
      have hb : remoteBytes resp = 0 := by simp [remoteBytes, hst]
      rw [hb]
      rfl
    · rw [if_neg h0]

/-- Witness for C7 at the concrete ready state and a valid decrypt call
whose remote transaction succeeds with wire status `OK`. -/
theorem C7_decrypt_remote_outcome_witness :
    (demoDecryptResp.txnOk = false →
      (decrypt demoHeapState demoDecryptResp demoArgs).result = DEAD_OBJECT) ∧
    (demoDecryptResp.txnOk = true → demoDecryptResp.status = 0 →
      (decrypt demoHeapState demoDecryptResp demoArgs).result =
        (demoDecryptResp.bytesWritten : Int) ∧
      0 ≤ (decrypt demoHeapState demoDecryptResp demoArgs).result ∧
      (demoArgs.hasErrorDetailMsg = true →
        (decrypt demoHeapState demoDecryptResp demoArgs).detailOut =
          some demoDecryptResp.detail)) ∧
    (demoDecryptResp.txnOk = true → demoDecryptResp.status ≠ 0 →
      (decrypt demoHeapState demoDecryptResp demoArgs).result =
        demoDecryptResp.toStatusT demoDecryptResp.status) :=
  C7_decrypt_remote_outcome demoHeapState demoDecryptResp demoArgs HMode.AES_CTR
    (by decide) (by decide) (by decide) (by decide) (by decide)

/-- Claim C9: whenever `mInitCheck ≠ OK`, every gated operation fails fast
with no remote call and no state change: `decrypt` and
`setMediaDrmSession` return `mInitCheck`, `setHeapBase` returns `-1`,
`requiresSecureDecoderComponent` returns `false`, and `notifyResolution`
does nothing. -/
theorem C9_not_ok_fails_fast
    (s : CryptoHalState) (resp : DecryptResp) (a : DecryptArgs)
    (txnOk value sessTxnOk : Bool) (status : Nat) (toStatusT : Nat → Int)
    (heapNonNull : Bool) (heapSize : Nat)
    (h : s.mInitCheck ≠ OK) :
    decrypt s resp a = ⟨s.mInitCheck, none, none⟩ ∧
    setMediaDrmSession s sessTxnOk status toStatusT = (s.mInitCheck, false) ∧
    setHeapBase s heapNonNull heapSize = ⟨-1, s, false⟩ ∧
    requiresSecureDecoderComponent s txnOk value = (false, false) ∧
    notifyResolutionCallsRemote s = false := by
  refine ⟨?_, ?_, ?_, ?_, ?_⟩
  · unfold decrypt; rw [if_pos h]
  · unfold setMediaDrmSession; rw [if_pos h]
  · unfold setHeapBase
    split
    · rfl
    · rfl
  · unfold requiresSecureDecoderComponent; rw [if_pos h]
  · unfold notifyResolutionCallsRemote; rw [if_pos h]

/-- Witness for C9 at the uninitialized state built with no factories
(`mInitCheck = ERROR_UNSUPPORTED ≠ OK`). -/
theorem C9_not_ok_fails_fast_witness :
    decrypt (ctor []) demoDecryptResp demoArgs = ⟨(ctor []).mInitCheck, none, none⟩ ∧
    setMediaDrmSession (ctor []) true 0 demoToStatusT = ((ctor []).mInitCheck, false) ∧
    setHeapBase (ctor []) true 100 = ⟨-1, ctor [], false⟩ ∧
    requiresSecureDecoderComponent (ctor []) true true = (false, false) ∧
    notifyResolutionCallsRemote (ctor []) = false :=
  C9_not_ok_fails_fast (ctor []) demoDecryptResp demoArgs true true true 0 demoToStatusT
    true 100 (by decide)

/-- Claim C10: with a `NATIVE_HANDLE` destination the call is marked secure
and the destination is never bounds-checked (the remote call is issued iff
the source buffer alone validates); with a destination type that is
neither `SHARED_MEMORY` nor `NATIVE_HANDLE`, `decrypt` returns
`UNKNOWN_ERROR` before any remote call. -/
theorem C10_destination_type_handling
    (s : CryptoHalState) (resp : DecryptResp) (a : DecryptArgs) (hMode : HMode)
    (hinit : s.mInitCheck = OK)
    (hmode : modeToHMode a.mode = some hMode) :
    (a.hDestination.type = BufferType_NATIVE_HANDLE →
      ((decrypt s resp a).call = none ↔ checkSharedBuffer s.mHeapSizes a.hSource ≠ OK) ∧
      (∀ c, (decrypt s resp a).call = some c → c.secure = true)) ∧
    (a.hDestination.type ≠ BufferType_SHARED_MEMORY →
      a.hDestination.type ≠ BufferType_NATIVE_HANDLE →
      (decrypt s resp a).result = UNKNOWN_ERROR ∧ (decrypt s resp a).call = none) := by
  constructor
  · intro hnative
    have hd : decrypt s resp a = decryptRemote s resp a hMode true := by
      unfold decrypt
      rw [if_neg (by simp [hinit]), hmode]
      dsimp only
      rw [if_neg (by rw [hnative]; decide), if_pos hnative]
    rw [hd]
    unfold decryptRemote
    constructor
    · split
      · next hs => simp [hs]
      · next hs =>
        push_neg at hs
        simp [hs]
    · intro c hc
      split at hc
      · simp at hc
      · simp only [Option.some.injEq] at hc
        rw [← hc]
        rfl
  · intro h1 h2
    unfold decrypt
    rw [if_neg (by simp [hinit]), hmode]
    dsimp only
    rw [if_neg h1, if_neg h2]
    exact ⟨rfl, rfl⟩

/-- Witness for C10 at the ready state with a `NATIVE_HANDLE` destination
whose `nonsecureMemory` is deliberately unregistered and out of bounds. -/
theorem C10_destination_type_handling_witness :
    (demoNativeArgs.hDestination.type = BufferType_NATIVE_HANDLE →
      ((decrypt demoHeapState demoDecryptResp demoNativeArgs).call = none ↔
        checkSharedBuffer demoHeapState.mHeapSizes demoNativeArgs.hSource ≠ OK) ∧
      (∀ c, (decrypt demoHeapState demoDecryptResp demoNativeArgs).call = some c →
        c.secure = true)) ∧
    (demoNativeArgs.hDestination.type ≠ BufferType_SHARED_MEMORY →
      demoNativeArgs.hDestination.type ≠ BufferType_NATIVE_HANDLE →
      (decrypt demoHeapState demoDecryptResp demoNativeArgs).result = UNKNOWN_ERROR ∧
      (decrypt demoHeapState demoDecryptResp demoNativeArgs).call = none) :=
  C10_destination_type_handling demoHeapState demoDecryptResp demoNativeArgs HMode.AES_CTR
    (by decide) (by decide)

/-- Unfolding `ksLookup` at a cons cell. -/
theorem ksLookup_cons (k' : Int) (v : Nat) (t : HeapSizes) (k : Int) :
    ksLookup ((k', v) :: t) k = if k' = k then some v else ksLookup t k := rfl

/-- Removing a key makes it unlookupable. -/
theorem ksLookup_ksRemove_self (m : HeapSizes) (key : Int) :
    ksLookup (ksRemove m key) key = none := by
  induction m with
  | nil => rfl
  | cons p t ih =>
    rcases p with ⟨k, v⟩
    unfold ksRemove at ih ⊢
    rw [List.filter_cons]
    by_cases h : k = key
    · rw [if_neg (by simp [h])]
      exact ih
    · rw [if_pos (by simp [h]), ksLookup_cons, if_neg h]
      exact ih

/-- Removing one key leaves every other key's lookup unchanged. -/
theorem ksLookup_ksRemove_other (m : HeapSizes) (key k : Int) (hk : k ≠ key) :
    ksLookup (ksRemove m key) k = ksLookup m k := by
  induction m with
  | nil => rfl
  | cons p t ih =>
    rcases p with ⟨k', v⟩
    unfold ksRemove at ih ⊢
    rw [List.filter_cons]
    by_cases h : k' = key
    · rw [if_neg (by simp [h]), ih, ksLookup_cons,
        if_neg (show ¬k' = k from fun he => hk (he ▸ h))]
    · rw [if_pos (by simp [h]), ksLookup_cons, ksLookup_cons]
      by_cases h2 : k' = k
      · rw [if_pos h2, if_pos h2]
      · rw [if_neg h2, if_neg h2]
        exact ih

/-- Claim C8: `clearHeapBase(seqNum)` removes exactly that registration
when present — every other key's lookup and every other member field is
unchanged — and when `seqNum` is not registered the state is left entirely
unchanged. -/
theorem C8_clearHeapBase_frame (s : CryptoHalState) (seqNum : Int) :
    ((ksLookup s.mHeapSizes seqNum).isSome = true →
      ksLookup (clearHeapBase s seqNum).state.mHeapSizes seqNum = none ∧
      (∀ k, k ≠ seqNum →
        ksLookup (clearHeapBase s seqNum).state.mHeapSizes k =
          ksLookup s.mHeapSizes k) ∧
      (clearHeapBase s seqNum).state.mInitCheck = s.mInitCheck ∧
      (clearHeapBase s seqNum).state.mHeapSeqNum = s.mHeapSeqNum ∧
      (clearHeapBase s seqNum).state.mPlugin = s.mPlugin ∧
      (clearHeapBase s seqNum).state.mPluginV1_2 = s.mPluginV1_2 ∧
      (clearHeapBase s seqNum).state.mFactories = s.mFactories) ∧
    ((ksLookup s.mHeapSizes seqNum).isSome = false →
      (clearHeapBase s seqNum).state = s) := by
  constructor
  · intro hsome
    unfold clearHeapBase
    rw [if_pos hsome]
    exact ⟨ksLookup_ksRemove_self _ _,
      fun k hk => ksLookup_ksRemove_other _ _ _ hk, rfl, rfl, rfl, rfl, rfl⟩
  · intro hnone
    unfold clearHeapBase
    rw [if_neg (by simp [hnone])]

/-- The `createPlugin` loop never touches the factory list, the heap
sequence counter or the heap-size map. -/
theorem createPluginGo_frame (uuid : List Nat) (resp : Nat → CreateResp) :
    ∀ (fs : List (Nat × FactoryModel)) (s : CryptoHalState) (acc : List Nat),
      (createPluginGo uuid resp fs s acc).1.mFactories = s.mFactories ∧
      (createPluginGo uuid resp fs s acc).1.mHeapSeqNum = s.mHeapSeqNum ∧
      (createPluginGo uuid resp fs s acc).1.mHeapSizes = s.mHeapSizes := by
  intro fs
  induction fs with
  | nil => intro s acc; exact ⟨rfl, rfl, rfl⟩
  | cons p rest ih =>
    intro s acc
    rcases p with ⟨i, f⟩
    unfold createPluginGo
    by_cases h : f.supports uuid = true
    · rw [if_pos h]
      dsimp only
      split
      · exact ih _ _
      · exact ih _ _
    · rw [if_neg h]
      exact ih _ _

/-- After the `createPlugin` loop, `mInitCheck` is either untouched or
`DEAD_OBJECT` (set by a failed `makeCryptoPlugin` transaction). -/
theorem createPluginGo_initCheck (uuid : List Nat) (resp : Nat → CreateResp) :
    ∀ (fs : List (Nat × FactoryModel)) (s : CryptoHalState) (acc : List Nat),
      (createPluginGo uuid resp fs s acc).1.mInitCheck = s.mInitCheck ∨
      (createPluginGo uuid resp fs s acc).1.mInitCheck = DEAD_OBJECT := by
  intro fs
  induction fs with
  | nil => intro s acc; exact Or.inl rfl
  | cons p rest ih =>
    intro s acc
    rcases p with ⟨i, f⟩
    unfold createPluginGo
    by_cases h : f.supports uuid = true
    · rw [if_pos h]
      dsimp only
      split
      all_goals
        rcases ih _ _ with h1 | h1
        · rw [h1]
          unfold makeCryptoPlugin
          dsimp only
          split
          · exact Or.inl rfl
          · exact Or.inr rfl
        · exact Or.inr h1
    · rw [if_neg h]
      exact ih _ _

/-- `createPlugin` always leaves `mInitCheck` different from `NO_INIT`. -/
theorem createPlugin_not_NO_INIT (s : CryptoHalState) (uuid : List Nat)
    (resp : Nat → CreateResp) :
    (createPlugin s uuid resp).state.mInitCheck ≠ NO_INIT := by
  unfold createPlugin
  dsimp only
  split
  · split
    · exact (by decide : ERROR_UNSUPPORTED ≠ NO_INIT)
    · exact (by decide : OK ≠ NO_INIT)
  · next h => exact h

/-- `createPlugin` never touches the factory list, the heap sequence
counter or the heap-size map. -/
theorem createPlugin_frame (s : CryptoHalState) (uuid : List Nat)
    (resp : Nat → CreateResp) :
    (createPlugin s uuid resp).state.mFactories = s.mFactories ∧
    (createPlugin s uuid resp).state.mHeapSeqNum = s.mHeapSeqNum ∧
    (createPlugin s uuid resp).state.mHeapSizes = s.mHeapSizes := by
  unfold createPlugin
  dsimp only
  obtain ⟨hf, hseq, hsz⟩ := createPluginGo_frame uuid resp s.mFactories.enum s []
  split
  · exact ⟨hf, hseq, hsz⟩
  · exact ⟨hf, hseq, hsz⟩

/-- `destroyPlugin` never touches the factory list, the heap sequence
counter or the heap-size map. -/
theorem destroyPlugin_frame (s : CryptoHalState) :
    (destroyPlugin s).2.mFactories = s.mFactories ∧
    (destroyPlugin s).2.mHeapSeqNum = s.mHeapSeqNum ∧
    (destroyPlugin s).2.mHeapSizes = s.mHeapSizes := by
  unfold destroyPlugin
  split
  · exact ⟨rfl, rfl, rfl⟩
  · exact ⟨rfl, rfl, rfl⟩

/-- `setHeapBase` only ever changes the heap counter and the heap map. -/
theorem setHeapBase_frame (s : CryptoHalState) (heapNonNull : Bool) (heapSize : Nat) :
    (setHeapBase s heapNonNull heapSize).state.mInitCheck = s.mInitCheck ∧
    (setHeapBase s heapNonNull heapSize).state.mPlugin = s.mPlugin ∧
    (setHeapBase s heapNonNull heapSize).state.mPluginV1_2 = s.mPluginV1_2 ∧
    (setHeapBase s heapNonNull heapSize).state.mFactories = s.mFactories := by
  unfold setHeapBase
  split
  · exact ⟨rfl, rfl, rfl, rfl⟩
  · split
    · exact ⟨rfl, rfl, rfl, rfl⟩
    · exact ⟨rfl, rfl, rfl, rfl⟩

/-- `setHeapBase` either fails, leaving everything unchanged, or succeeds
from a non-negative counter, returning it and bumping it. -/
theorem setHeapBase_cases (s : CryptoHalState) (heapNonNull : Bool) (heapSize : Nat) :
    setHeapBase s heapNonNull heapSize = ⟨-1, s, false⟩ ∨
    (0 ≤ s.mHeapSeqNum ∧
      setHeapBase s heapNonNull heapSize =
        ⟨s.mHeapSeqNum,
         { s with
            mHeapSeqNum := int32Succ s.mHeapSeqNum
            mHeapSizes := ksAdd s.mHeapSizes s.mHeapSeqNum heapSize }, true⟩) := by
  unfold setHeapBase
  split
  · exact Or.inl rfl
  · next hg =>
    push_neg at hg
    split
    · exact Or.inl rfl
    · exact Or.inr ⟨by omega, rfl⟩

/-- `clearHeapBase` only ever changes the heap map. -/
theorem clearHeapBase_frame (s : CryptoHalState) (seqNum : Int) :
    (clearHeapBase s seqNum).state.mInitCheck = s.mInitCheck ∧
    (clearHeapBase s seqNum).state.mHeapSeqNum = s.mHeapSeqNum ∧
    (clearHeapBase s seqNum).state.mPlugin = s.mPlugin ∧
    (clearHeapBase s seqNum).state.mPluginV1_2 = s.mPluginV1_2 ∧
    (clearHeapBase s seqNum).state.mFactories = s.mFactories := by
  unfold clearHeapBase
  split
  · exact ⟨rfl, rfl, rfl, rfl, rfl⟩
  · exact ⟨rfl, rfl, rfl, rfl, rfl⟩

/-- In every reachable state, `mInitCheck = NO_INIT` implies the plugin is
null. -/
theorem reachable_NO_INIT_plugin_null {s : CryptoHalState} {hist : List Int}
    (h : ReachableH s hist) : s.mInitCheck = NO_INIT → s.mPlugin = false := by
  induction h with
  | ctorStep factories => intro _; rfl
  | createPluginStep uuid resp hr ih =>
    intro hni
    exact absurd hni (createPlugin_not_NO_INIT _ _ _)
  | destroyPluginStep hr ih =>
    rename_i s hist
    by_cases hcond : s.mInitCheck ≠ OK
    · unfold destroyPlugin
      rw [if_pos hcond]
      exact ih
    · unfold destroyPlugin
      rw [if_neg hcond]
      intro _
      rfl
  | setHeapBaseStep heapNonNull heapSize hr ih =>
    rename_i s hist
    obtain ⟨h1, h2, -, -⟩ := setHeapBase_frame s heapNonNull heapSize
    rw [h1, h2]
    exact ih
  | clearHeapBaseStep seqNum hr ih =>
    rename_i s hist
    obtain ⟨h1, -, h3, -, -⟩ := clearHeapBase_frame s seqNum
    rw [h1, h3]
    exact ih

/-- Claim C4, amended: in every reachable state `mInitCheck` is one of
`NO_INIT`, `OK`, `ERROR_UNSUPPORTED` or `DEAD_OBJECT` (the spec's
two-value claim misses the last two). -/
theorem C4_initCheck_reachable_values {s : CryptoHalState} {hist : List Int}
    (h : ReachableH s hist) :
    s.mInitCheck = NO_INIT ∨ s.mInitCheck = OK ∨
    s.mInitCheck = ERROR_UNSUPPORTED ∨ s.mInitCheck = DEAD_OBJECT := by
  induction h with
  | ctorStep factories =>
    unfold ctor
    dsimp only
    split
    · exact Or.inr (Or.inr (Or.inl rfl))
    · exact Or.inl rfl
  | createPluginStep uuid resp hr ih =>
    rename_i s hist
    unfold createPlugin
    dsimp only
    split
    · split
      · exact Or.inr (Or.inr (Or.inl rfl))
      · exact Or.inr (Or.inl rfl)
    · rcases createPluginGo_initCheck uuid resp s.mFactories.enum s [] with h2 | h2
      · rw [h2]; exact ih
      · rw [h2]; exact Or.inr (Or.inr (Or.inr rfl))
  | destroyPluginStep hr ih =>
    rename_i s hist
    unfold destroyPlugin
    split
    · exact ih
    · exact Or.inl rfl
  | setHeapBaseStep heapNonNull heapSize hr ih =>
    rename_i s hist
    rw [(setHeapBase_frame s heapNonNull heapSize).1]
    exact ih
  | clearHeapBaseStep seqNum hr ih =>
    rename_i s hist
    rw [(clearHeapBase_frame s seqNum).1]
    exact ih

/-- Witness for the amended C4 at a concrete reachable ready state. -/
theorem C4_initCheck_reachable_values_witness :
    demoReadyState.mInitCheck = NO_INIT ∨ demoReadyState.mInitCheck = OK ∨
    demoReadyState.mInitCheck = ERROR_UNSUPPORTED ∨
    demoReadyState.mInitCheck = DEAD_OBJECT :=
  C4_initCheck_reachable_values demoReadyState_reachable

/-- Counterexample to C4 as stated: the state reached by constructing the
wrapper when no crypto factory is discovered has
`mInitCheck = ERROR_UNSUPPORTED`, which is neither `NO_INIT` nor `OK`. -/
theorem C4_initCheck_two_values_counterexample :
    ReachableH (ctor []) [] ∧ (ctor []).mInitCheck ≠ NO_INIT ∧
    (ctor []).mInitCheck ≠ OK :=
  ⟨ReachableH.ctorStep [], by decide, by decide⟩

/-- History invariant: every sequence number ever returned by a successful
`setHeapBase` is non-negative, and unless the counter has wrapped to a
negative value it strictly exceeds all of them. -/
theorem seqNum_hist_invariant {s : CryptoHalState} {hist : List Int}
    (h : ReachableH s hist) :
    (∀ r ∈ hist, 0 ≤ r) ∧
    (s.mHeapSeqNum < 0 ∨ ∀ r ∈ hist, r < s.mHeapSeqNum) := by
  induction h with
  | ctorStep factories =>
    exact ⟨by simp, Or.inr (by simp)⟩
  | createPluginStep uuid resp hr ih =>
    rename_i s hist
    rwa [(createPlugin_frame s uuid resp).2.1]
  | destroyPluginStep hr ih =>
    rename_i s hist
    rwa [(destroyPlugin_frame s).2.1]
  | setHeapBaseStep heapNonNull heapSize hr ih =>
    rename_i s hist
    obtain ⟨ih1, ih2⟩ := ih
    rcases setHeapBase_cases s heapNonNull heapSize with hc | ⟨hge, hc⟩
    · rw [hc]
      dsimp only
      rw [if_neg (by norm_num)]
      exact ⟨ih1, ih2⟩
    · rw [hc]
      dsimp only
      rw [if_pos hge]
      constructor
      · intro r hr2
        rcases List.mem_cons.mp hr2 with rfl | hr2
        · exact hge
        · exact ih1 r hr2
      · by_cases hmax : s.mHeapSeqNum = 2 ^ 31 - 1
        · exact Or.inl (by unfold int32Succ; rw [if_pos hmax]; norm_num)
        · refine Or.inr ?_
          intro r hr2
          unfold int32Succ
          rw [if_neg hmax]
          rcases List.mem_cons.mp hr2 with rfl | hr2
          · omega
          · rcases ih2 with h2 | h2
            · omega
            · have := h2 r hr2
              omega
  | clearHeapBaseStep seqNum hr ih =>
    rename_i s hist
    rwa [(clearHeapBase_frame s seqNum).2.1]

/-- Claim C5: from a reachable ready state with a non-negative counter, a
`setHeapBase` call with a non-null heap succeeds, returning a non-negative
sequence number strictly greater than every previously returned one —
sequence numbers are never reused, even after `clearHeapBase` — and
registers the heap's size under that number. -/
theorem C5_setHeapBase_fresh_seqnum
    (s : CryptoHalState) (hist : List Int) (heapSize : Nat)
    (hr : ReachableH s hist) (hinit : s.mInitCheck = OK)
    (hseq : 0 ≤ s.mHeapSeqNum) :
    0 ≤ (setHeapBase s true heapSize).ret ∧
    (∀ r ∈ hist, r < (setHeapBase s true heapSize).ret) ∧
    ksLookup (setHeapBase s true heapSize).state.mHeapSizes
      (setHeapBase s true heapSize).ret = some heapSize := by
  have hc : setHeapBase s true heapSize =
      ⟨s.mHeapSeqNum,
       { s with
          mHeapSeqNum := int32Succ s.mHeapSeqNum
          mHeapSizes := ksAdd s.mHeapSizes s.mHeapSeqNum heapSize }, true⟩ := by
    rcases setHeapBase_cases s true heapSize with h1 | ⟨-, h1⟩
    · exfalso
      unfold setHeapBase at h1
      rw [if_neg (by push_neg; exact ⟨by simp, by omega⟩), if_neg (by simp [hinit])] at h1
      have := congrArg SetHeapBaseResult.ret h1
      simp at this
      omega
    · exact h1
  rw [hc]
  dsimp only
  refine ⟨hseq, ?_, ?_⟩
  · intro r hrr
    rcases (seqNum_hist_invariant hr).2 with h | h
    · omega
    · exact h r hrr
  · unfold ksAdd
    rw [ksLookup_cons, if_pos rfl]

/-- Witness for C5 at the reachable state holding one registration made
with sequence number 0. -/
theorem C5_setHeapBase_fresh_seqnum_witness :
    0 ≤ (setHeapBase demoHeapState true 64).ret ∧
    (∀ r ∈ [(0 : Int)], r < (setHeapBase demoHeapState true 64).ret) ∧
    ksLookup (setHeapBase demoHeapState true 64).state.mHeapSizes
      (setHeapBase demoHeapState true 64).ret = some 64 :=
  C5_setHeapBase_fresh_seqnum demoHeapState [0] 64 demoHeapState_reachable
    (by decide) (by decide)

/-- Indices recorded by the `createPlugin` loop come from the accumulator
or from listed pairs whose factory supports the uuid. -/
theorem createPluginGo_created (uuid : List Nat) (resp : Nat → CreateResp) :
    ∀ (fs : List (Nat × FactoryModel)) (s : CryptoHalState) (acc : List Nat),
      ∀ i ∈ (createPluginGo uuid resp fs s acc).2,
        i ∈ acc ∨ ∃ f, (i, f) ∈ fs ∧ f.supports uuid = true := by
  intro fs
  induction fs with
  | nil => intro s acc i hi; exact Or.inl hi
  | cons p rest ih =>
    intro s acc i hi
    rcases p with ⟨j, f⟩
    unfold createPluginGo at hi
    by_cases h : f.supports uuid = true
    · rw [if_pos h] at hi
      dsimp only at hi
      rcases ih _ _ i hi with hacc | ⟨g, hg, hgs⟩
      · rcases List.mem_append.mp hacc with h1 | h1
        · exact Or.inl h1
        · refine Or.inr ⟨f, ?_, h⟩
          have hij : i = j := by simpa using h1
          rw [hij]
          exact List.mem_cons_self _ _
      · exact Or.inr ⟨g, List.mem_cons_of_mem _ hg, hgs⟩
    · rw [if_neg h] at hi
      rcases ih _ _ i hi with hacc | ⟨g, hg, hgs⟩
      · exact Or.inl hacc
      · exact Or.inr ⟨g, List.mem_cons_of_mem _ hg, hgs⟩

/-- If no listed factory supports the uuid, the `createPlugin` loop leaves
state and accumulator untouched. -/
theorem createPluginGo_no_support (uuid : List Nat) (resp : Nat → CreateResp) :
    ∀ (fs : List (Nat × FactoryModel)) (s : CryptoHalState) (acc : List Nat),
      (∀ p ∈ fs, (p : Nat × FactoryModel).2.supports uuid = false) →
      createPluginGo uuid resp fs s acc = (s, acc) := by
  intro fs
  induction fs with
  | nil => intro s acc h; rfl
  | cons p rest ih =>
    intro s acc h
    rcases p with ⟨j, f⟩
    unfold createPluginGo
    rw [if_neg (by simp only [Bool.not_eq_true]; exact h (j, f) (List.mem_cons_self _ _))]
    exact ih _ _ (fun q hq => h q (List.mem_cons_of_mem _ hq))

/-- Claim C3: a plugin is only ever created through a factory whose
`isCryptoSchemeSupported(uuid)` returned true; the wrapper's
`isCryptoSchemeSupported` returns true iff at least one discovered
factory supports the uuid; and from `NO_INIT` with no supporting factory,
`createPlugin` leaves the plugin null and returns `ERROR_UNSUPPORTED`. -/
theorem C3_createPlugin_factory_selection
    (s : CryptoHalState) (hist : List Int) (uuid : List Nat)
    (resp : Nat → CreateResp) (hr : ReachableH s hist) :
    (isCryptoSchemeSupported s uuid = true ↔
      ∃ f ∈ s.mFactories, f.supports uuid = true) ∧
    (∀ i ∈ (createPlugin s uuid resp).created,
      ∃ f, s.mFactories[i]? = some f ∧ f.supports uuid = true) ∧
    ((∀ f ∈ s.mFactories, f.supports uuid = false) → s.mInitCheck = NO_INIT →
      (createPlugin s uuid resp).state.mPlugin = false ∧
      (createPlugin s uuid resp).ret = ERROR_UNSUPPORTED) := by
  refine ⟨?_, ?_, ?_⟩
  · unfold isCryptoSchemeSupported
    exact List.any_eq_true
  · intro i hi
    unfold createPlugin at hi
    dsimp only at hi
    rcases createPluginGo_created uuid resp _ _ _ i hi with hacc | ⟨f, hf, hfs⟩
    · simp at hacc
    · exact ⟨f, List.mk_mem_enum_iff_getElem?.mp hf, hfs⟩
  · intro hno hni
    have hloop : createPluginGo uuid resp s.mFactories.enum s [] = (s, []) :=
      createPluginGo_no_support uuid resp _ s []
        (fun p hp => by
          rcases p with ⟨i, f⟩
          exact hno f (List.getElem?_mem (List.mk_mem_enum_iff_getElem?.mp hp)))
    have hplug : s.mPlugin = false := reachable_NO_INIT_plugin_null hr hni
    unfold createPlugin
    dsimp only
    rw [hloop]
    dsimp only
    rw [if_pos hni, if_pos hplug]
    exact ⟨hplug, rfl⟩

/-- Witness for C3 at the concrete reachable ready state. -/
theorem C3_createPlugin_factory_selection_witness :
    (isCryptoSchemeSupported demoReadyState demoUuid = true ↔
      ∃ f ∈ demoReadyState.mFactories, f.supports demoUuid = true) ∧
    (∀ i ∈ (createPlugin demoReadyState demoUuid demoCreateResp).created,
      ∃ f, demoReadyState.mFactories[i]? = some f ∧ f.supports demoUuid = true) ∧
    ((∀ f ∈ demoReadyState.mFactories, f.supports demoUuid = false) →
      demoReadyState.mInitCheck = NO_INIT →
      (createPlugin demoReadyState demoUuid demoCreateResp).state.mPlugin = false ∧
      (createPlugin demoReadyState demoUuid demoCreateResp).ret = ERROR_UNSUPPORTED) :=
  C3_createPlugin_factory_selection demoReadyState [] demoUuid demoCreateResp
    demoReadyState_reachable

end CryptoHal
